import Mathlib

/-
Verification of the performance-history ledger and derived-dashboard
pipeline: a shallow embedding of `scripts/update-history.js`,
`scripts/backfill-report-urls.js` and `scripts/build-dashboard.js`.

File system effects are made explicit: a reports directory is an optional
listing of (file name, parsed JSON content) pairs (`none` models an absent
directory, i.e. an ENOENT from `readdir`), and the ledger file is a
`FileRead` value distinguishing a missing file, a read error, a JSON parse
error, and parsed content.  JavaScript's `Date.parse` is an external
runtime primitive, so the dashboard functions take it as an explicit
parameter `dp : String → Option Int` (`none` models `NaN`, `some v` the
millisecond timestamp, which may be `0` or negative).
-/

/-- The four Lighthouse category scores of one entry; each is independently
nullable (the `metrics` record built in `scripts/update-history.js`). -/
structure Metrics where
  performance : Option Rat
  accessibility : Option Rat
  bestPractices : Option Rat
  seo : Option Rat
deriving DecidableEq

/-- A canonical history-ledger entry: the object literal pushed by
`collectCurrentRun` in `scripts/update-history.js`.  Fields other than
`metrics` can be `null`/absent in a ledger read back from disk, so they are
all optional; `reportUrl` may be set later by the backfill pass. -/
structure HistoryEntry where
  runId : Option String
  runNumber : Option Int
  runUrl : Option String
  page : Option String
  preset : Option String
  fetchTime : Option String
  metrics : Metrics
  reportUrl : Option String
deriving DecidableEq

/-- The parts of a parsed Lighthouse JSON artifact that the scripts read.
The four score fields model `report.categories.<name>?.score ?? null`; the
two fetch-time fields model `report.lighthouseResult?.fetchTime` and
`report.fetchTime` (each `none` when the optional chain yields a nullish
value). -/
structure LighthouseReport where
  performanceScore : Option Rat
  accessibilityScore : Option Rat
  bestPracticesScore : Option Rat
  seoScore : Option Rat
  lighthouseFetchTime : Option String
  topLevelFetchTime : Option String
deriving DecidableEq

/-- The result of reading and `JSON.parse`-ing one artifact file:
`malformed` models an unreadable file or a parse failure (the `try` block
throws), `jsNull` models a file whose JSON is `null` (property access on it
throws), `parsed` a successfully parsed report object. -/
inductive ArtifactJson where
  | malformed
  | jsNull
  | parsed (r : LighthouseReport)
deriving DecidableEq

/-- A reports directory: `none` models ENOENT from `readdir`, `some files`
a listing of (file name, content) pairs. -/
abbrev ReportsDir := Option (List (String × ArtifactJson))

/-- The run-context environment variables read by `update-history.js`
(`GITHUB_RUN_ID`, `GITHUB_RUN_NUMBER`, `GITHUB_RUN_URL`), each absent or
present. -/
structure RunContext where
  runId : Option String
  runNumber : Option Int
  runUrl : Option String
deriving DecidableEq

/-- `String.prototype.indexOf` on character lists: the least index at which
`needle` occurs in the haystack, or `none` (JS `-1`). -/
def idxOf? (needle : List Char) : List Char → Option Nat
  | [] => if needle.isEmpty then some 0 else none
  | c :: t =>
    if needle.isPrefixOf (c :: t) then some 0
    else (idxOf? needle t).map (fun i => i + 1)

/-- The literal marker `-mobile-` scanned for by `parseReportFile`. -/
def mobileMarker : List Char := "-mobile-".toList

/-- The literal marker `-desktop-` scanned for by `parseReportFile`. -/
def desktopMarker : List Char := "-desktop-".toList

/-- The character replacement of `safePart.replace(/_/g, " ")`. -/
def underscoreToSpace (c : Char) : Char := if c = '_' then ' ' else c

/-- `String.prototype.endsWith`, modelled on the character-list view of
strings (the byte-position implementation of the core library is
extensionally the same suffix test). -/
def strEndsWith (s suffix : String) : Bool := List.isSuffixOf suffix.toList s.toList

/-- Removal of the last `n` characters of a string, used to model the
anchored `replace(/x$/ , y)` suffix substitutions. -/
def strDropRight (s : String) (n : Nat) : String :=
  String.mk (s.toList.take (s.toList.length - n))

/-- `parseReportFile` from `scripts/update-history.js` (the identical
function also appears in `backfill-report-urls.js` and
`build-dashboard.js`): the loop over the candidates `mobile` then
`desktop` is unrolled; each candidate is located with `indexOf`
(leftmost occurrence). -/
def parseReportFile (file : String) : String × String :=
  match idxOf? mobileMarker file.toList with
  | some idx => (String.mk ((file.toList.take idx).map underscoreToSpace), "mobile")
  | none =>
    match idxOf? desktopMarker file.toList with
    | some idx => (String.mk ((file.toList.take idx).map underscoreToSpace), "desktop")
    | none => (file, "")

/-- `report.lighthouseResult?.fetchTime ?? report.fetchTime ?? null`. -/
def fetchTimeOf (r : LighthouseReport) : Option String :=
  r.lighthouseFetchTime <|> r.topLevelFetchTime

/-- The entry object pushed by `collectCurrentRun` for one parsed artifact. -/
def mkHistoryEntry (ctx : RunContext) (file : String) (r : LighthouseReport) :
    HistoryEntry :=
  { runId := ctx.runId
    runNumber := ctx.runNumber
    runUrl := ctx.runUrl
    page := some (parseReportFile file).1
    preset := some (parseReportFile file).2
    fetchTime := fetchTimeOf r
    metrics :=
      { performance := r.performanceScore
        accessibility := r.accessibilityScore
        bestPractices := r.bestPracticesScore
        seo := r.seoScore }
    reportUrl := none }

/-- One iteration of the `for (const file of jsonFiles)` loop of
`collectCurrentRun`: a parse failure or a JSON `null` (whose property
access throws) lands in the `catch` and contributes nothing; any other
parsed report is pushed, with no condition on its scores. -/
def collectStep (ctx : RunContext) (entries : List HistoryEntry)
    (f : String × ArtifactJson) : List HistoryEntry :=
  match f.2 with
  | ArtifactJson.malformed => entries
  | ArtifactJson.jsNull => entries
  | ArtifactJson.parsed r => entries ++ [mkHistoryEntry ctx f.1 r]

/-- `collectCurrentRun` from `scripts/update-history.js`: an absent
directory yields `[]`; otherwise the `.json` files are processed in listing
order. -/
def collectCurrentRun (ctx : RunContext) (dir : ReportsDir) : List HistoryEntry :=
  match dir with
  | none => []
  | some files => (files.filter (fun f => strEndsWith f.1 ".json")).foldl (collectStep ctx) []

/-- A parsed ledger file body: a JSON array of entries, or any other JSON
value (`Array.isArray` fails). -/
inductive LedgerJson where
  | arr (entries : List HistoryEntry)
  | nonArray
deriving DecidableEq

/-- The outcome of reading the ledger file: missing (ENOENT), a non-ENOENT
read error, a `JSON.parse` failure, or parsed content. -/
inductive FileRead where
  | missing
  | readErr
  | parseErr
  | content (j : LedgerJson)
deriving DecidableEq

/-- `readExistingHistory` from `scripts/update-history.js`: ENOENT yields
`[]`, other read errors and parse errors are rethrown (modelled as
`Except.error`), a parsed non-array yields `[]`. -/
def readExistingHistory : FileRead → Except Unit (List HistoryEntry)
  | FileRead.missing => Except.ok []
  | FileRead.readErr => Except.error ()
  | FileRead.parseErr => Except.error ()
  | FileRead.content (LedgerJson.arr l) => Except.ok l
  | FileRead.content LedgerJson.nonArray => Except.ok []

/-- The ledger contents that result from one collect-and-append pass of
`main` in `scripts/update-history.js`: when the pass collected nothing the
function returns early and the ledger is unchanged, otherwise the new
entries are concatenated after the existing ones. -/
def mainStep (existing current : List HistoryEntry) : List HistoryEntry :=
  if current.isEmpty then existing else existing ++ current

/-- `main` from `scripts/update-history.js` at the effect level:
`Except.error` models an uncaught throw (no write happened), `Except.ok
none` the early return without a write, `Except.ok (some l)` a write of
`l` to the ledger file. -/
def mainRun (file : FileRead) (dir : ReportsDir) (ctx : RunContext) :
    Except Unit (Option (List HistoryEntry)) :=
  match readExistingHistory file with
  | Except.error e => Except.error e
  | Except.ok existing =>
    let current := collectCurrentRun ctx dir
    if current.isEmpty then Except.ok none
    else Except.ok (some (existing ++ current))

/-- What `mainRun` wrote to the ledger file, if anything. -/
def mainWrites : Except Unit (Option (List HistoryEntry)) → Option (List HistoryEntry)
  | Except.error _ => none
  | Except.ok w => w

/-- The `jsonCandidate` computation of `buildHtmlIndex`: replace a trailing
`.report.html` by `.report.json`, else a trailing `.html` by `.json` (the
two chained `replace` calls cannot both fire, since the first produces a
name ending in `.json`). -/
def jsonCounterpart (file : String) : String :=
  if strEndsWith file ".report.html" then
    strDropRight file (".report.html".length) ++ ".report.json"
  else if strEndsWith file ".html" then strDropRight file (".html".length) ++ ".json"
  else file

/-- One entry of the backfill index built by `buildHtmlIndex` in
`scripts/backfill-report-urls.js`. -/
structure IndexEntry where
  page : String
  preset : String
  fetchTime : Option String
  reportUrl : String
deriving DecidableEq

/-- One iteration of the `for (const file of htmlFiles)` loop of
`buildHtmlIndex`: a missing JSON counterpart (readFile throws ENOENT), a
parse failure, or a JSON `null` all land in the `catch` and contribute
nothing. -/
def indexStep (files : List (String × ArtifactJson)) (index : List IndexEntry)
    (f : String × ArtifactJson) : List IndexEntry :=
  match (files.find? (fun g => g.1 == jsonCounterpart f.1)).map Prod.snd with
  | none => index
  | some ArtifactJson.malformed => index
  | some ArtifactJson.jsNull => index
  | some (ArtifactJson.parsed r) =>
    index ++ [{ page := (parseReportFile f.1).1
                preset := (parseReportFile f.1).2
                fetchTime := fetchTimeOf r
                reportUrl := "lighthouse-reports/" ++ f.1 }]

/-- `buildHtmlIndex` from `scripts/backfill-report-urls.js`: an absent
directory yields `[]`; otherwise the `.html` files are processed in listing
order. -/
def buildHtmlIndex (dir : ReportsDir) : List IndexEntry :=
  match dir with
  | none => []
  | some files => (files.filter (fun f => strEndsWith f.1 ".html")).foldl (indexStep files) []

/-- JavaScript truthiness of a nullable string (`null`, `undefined` and
`""` are falsy). -/
def strTruthy : Option String → Bool
  | none => false
  | some s => !(s == "")

/-- The guard `!entry.page || !entry.preset || !entry.fetchTime` of the
backfill loop, negated. -/
def fieldsPresent (e : HistoryEntry) : Bool :=
  strTruthy e.page && strTruthy e.preset && strTruthy e.fetchTime

/-- The predicate of `index.find` in `backfill`: strict equality of the
`(page, preset, fetchTime)` triple (an index `page`/`preset` is always a
string, so `===` against a nullable entry field is `Option` equality with
`some`). -/
def indexMatches (e : HistoryEntry) (i : IndexEntry) : Bool :=
  (e.page == some i.page) && (e.preset == some i.preset) && (e.fetchTime == i.fetchTime)

/-- One iteration of the `for (const entry of history)` loop of `backfill`:
entries with a truthy `reportUrl` are skipped, entries missing any of
`page`/`preset`/`fetchTime` are skipped, otherwise the first matching index
entry (if any) supplies `reportUrl`. -/
def backfillStep (index : List IndexEntry) (e : HistoryEntry) : HistoryEntry :=
  if strTruthy e.reportUrl then e
  else if !(fieldsPresent e) then e
  else
    match index.find? (indexMatches e) with
    | some m => { e with reportUrl := some m.reportUrl }
    | none => e

/-- Whether the backfill loop increments `updatedCount` at entry `e`. -/
def backfillUpdated (index : List IndexEntry) (e : HistoryEntry) : Bool :=
  !(strTruthy e.reportUrl) && fieldsPresent e && (index.find? (indexMatches e)).isSome

/-- The whole backfill loop: the patched history and the final
`updatedCount`. -/
def backfillPass (index : List IndexEntry) (history : List HistoryEntry) :
    List HistoryEntry × Nat :=
  (history.map (backfillStep index), history.countP (backfillUpdated index))

/-- `backfill` from `scripts/backfill-report-urls.js` at the effect level:
`none` models a return without writing the ledger (read error, parse
error, non-array content, or `updatedCount === 0`), `some l` a write of
`l`. -/
def backfillRun (file : FileRead) (dir : ReportsDir) : Option (List HistoryEntry) :=
  match file with
  | FileRead.content (LedgerJson.arr history) =>
    let passed := backfillPass (buildHtmlIndex dir) history
    if passed.2 = 0 then none else some passed.1
  | _ => none

/-- `getHtmlReports` from `scripts/build-dashboard.js`: an absent directory
yields `[]`. -/
def getHtmlReports (dir : ReportsDir) : List String :=
  match dir with
  | none => []
  | some files => (files.filter (fun f => strEndsWith f.1 ".html")).map Prod.fst

/-- The sort key `a.fetchTime ? Date.parse(a.fetchTime) || 0 : 0` of the
table view in `buildDashboard` (`dp` models `Date.parse`; a `0` result is
falsy in JS so `|| 0` leaves it `0`, hence a successful parse contributes
its exact value). -/
def tKey (dp : String → Option Int) (e : HistoryEntry) : Int :=
  match e.fetchTime with
  | none => 0
  | some s => if s == "" then 0 else (dp s).getD 0

/-- The secondary sort key `typeof a.runNumber === "number" ? a.runNumber : 0`. -/
def rKey (e : HistoryEntry) : Int := e.runNumber.getD 0

/-- `a` may be placed before `b` by the table-view comparator, i.e. the
comparator value `tb - ta` (or `rb - ra` on a timestamp tie) is `≤ 0`. -/
def tableRel (dp : String → Option Int) (a b : HistoryEntry) : Prop :=
  tKey dp b < tKey dp a ∨ (tKey dp a = tKey dp b ∧ rKey b ≤ rKey a)

instance tableRelDecidable (dp : String → Option Int) : DecidableRel (tableRel dp) :=
  fun a b =>
    inferInstanceAs (Decidable (tKey dp b < tKey dp a ∨ (tKey dp a = tKey dp b ∧ rKey b ≤ rKey a)))

instance tableRelTotal (dp : String → Option Int) : IsTotal HistoryEntry (tableRel dp) := by
  constructor
  intro a b
  unfold tableRel
  omega

instance tableRelTrans (dp : String → Option Int) : IsTrans HistoryEntry (tableRel dp) := by
  constructor
  intro a b c hab hbc
  unfold tableRel at hab hbc ⊢
  omega

/-- The table rows of `buildDashboard`, newest first: `ECMAScript
Array.prototype.sort` is stable and the comparator induces a total
preorder, so its result is the unique stable sort, here realised by
insertion sort. -/
def sortedHistoryEntries (dp : String → Option Int) (history : List HistoryEntry) :
    List HistoryEntry :=
  List.insertionSort (tableRel dp) history

/-- The four metric keys selectable in the dashboard's metric dropdown. -/
inductive MetricName where
  | performance
  | accessibility
  | bestPractices
  | seo
deriving DecidableEq

/-- `d.metrics[metric]`. -/
def getMetric (m : Metrics) : MetricName → Option Rat
  | MetricName.performance => m.performance
  | MetricName.accessibility => m.accessibility
  | MetricName.bestPractices => m.bestPractices
  | MetricName.seo => m.seo

/-- The normalisation `d._ts = d.fetchTime ? Date.parse(d.fetchTime) || null
: null` of the chart script: a falsy `fetchTime`, a failed parse, and a
parse result of exactly `0` (falsy in JS) all yield `null`. -/
def tsOf (dp : String → Option Int) (e : HistoryEntry) : Option Int :=
  match e.fetchTime with
  | none => none
  | some s =>
    if s == "" then none
    else
      match dp s with
      | none => none
      | some v => if v = 0 then none else some v

/-- `a` may be placed before `b` by the chart comparator
`(a, b) => a._ts - b._ts` (applied only to points with `_ts` non-null). -/
def trendRel (dp : String → Option Int) (a b : HistoryEntry) : Prop :=
  (tsOf dp a).getD 0 ≤ (tsOf dp b).getD 0

instance trendRelDecidable (dp : String → Option Int) : DecidableRel (trendRel dp) :=
  fun a b => inferInstanceAs (Decidable ((tsOf dp a).getD 0 ≤ (tsOf dp b).getD 0))

instance trendRelTotal (dp : String → Option Int) : IsTotal HistoryEntry (trendRel dp) := by
  constructor
  intro a b
  unfold trendRel
  omega

instance trendRelTrans (dp : String → Option Int) : IsTrans HistoryEntry (trendRel dp) := by
  constructor
  intro a b c hab hbc
  unfold trendRel at hab hbc ⊢
  omega

/-- The first chart filter
`(d) => d.page === page && d.preset === preset && d.metrics[metric] != null`. -/
def trendFilter (page preset : String) (metric : MetricName) (d : HistoryEntry) : Bool :=
  (d.page == some page) && (d.preset == some preset) && (getMetric d.metrics metric).isSome

/-- `seriesPoints` of `updateChart`: filter by page, preset and non-null
metric, then drop points with `_ts` null, then sort ascending by `_ts`
(stable sort, realised by insertion sort). -/
def trendSeries (dp : String → Option Int) (data : List HistoryEntry)
    (page preset : String) (metric : MetricName) : List HistoryEntry :=
  List.insertionSort (trendRel dp)
    ((data.filter (trendFilter page preset metric)).filter (fun d => (tsOf dp d).isSome))

/-- One chart point value `(d.metrics[metric] || 0) * 100`. -/
def pointValue (metric : MetricName) (d : HistoryEntry) : Rat :=
  (getMetric d.metrics metric).getD 0 * 100

/-- `values` of `updateChart`. -/
def trendValues (dp : String → Option Int) (data : List HistoryEntry)
    (page preset : String) (metric : MetricName) : List Rat :=
  (trendSeries dp data page preset metric).map (pointValue metric)

/-- `metricThresholdMap` of `updateChart`. -/
def metricThresholdMap : MetricName → Rat
  | MetricName.performance => 90
  | MetricName.accessibility => 90
  | MetricName.bestPractices => 90
  | MetricName.seo => 90

/-- The overlay dataset `labels.map(() => thresholdValue)` of
`updateChart` (one point per series point, all equal to the threshold). -/
def thresholdLine (dp : String → Option Int) (data : List HistoryEntry)
    (page preset : String) (metric : MetricName) : List Rat :=
  (trendSeries dp data page preset metric).map (fun _ => metricThresholdMap metric)

/-! Helper lemmas about the fold-based loops. -/

/-- The collection loop, rephrased extensionally: it keeps exactly the
artifacts whose JSON parses to a non-null value, in listing order. -/
theorem collect_foldl_eq (ctx : RunContext) :
    ∀ (l : List (String × ArtifactJson)) (acc : List HistoryEntry),
      l.foldl (collectStep ctx) acc
        = acc ++ l.filterMap (fun f =>
            match f.2 with
            | ArtifactJson.parsed r => some (mkHistoryEntry ctx f.1 r)
            | _ => none) := by
  intro l
  induction l with
  | nil => intro acc; simp
  | cons f t ih =>
    intro acc
    cases hf : f.2 with
    | malformed => simp [collectStep, hf, ih]
    | jsNull => simp [collectStep, hf, ih]
    | parsed r => simp [collectStep, hf, ih]

/-- The index entry contributed by one HTML artifact, if any. -/
def indexEntryOf (files : List (String × ArtifactJson)) (f : String × ArtifactJson) :
    Option IndexEntry :=
  match (files.find? (fun g => g.1 == jsonCounterpart f.1)).map Prod.snd with
  | some (ArtifactJson.parsed r) =>
    some { page := (parseReportFile f.1).1
           preset := (parseReportFile f.1).2
           fetchTime := fetchTimeOf r
           reportUrl := "lighthouse-reports/" ++ f.1 }
  | _ => none

/-- The index-building loop, rephrased extensionally. -/
theorem index_foldl_eq (files : List (String × ArtifactJson)) :
    ∀ (l : List (String × ArtifactJson)) (acc : List IndexEntry),
      l.foldl (indexStep files) acc = acc ++ l.filterMap (indexEntryOf files) := by
  intro l
  induction l with
  | nil => intro acc; simp
  | cons f t ih =>
    intro acc
    cases hm : (files.find? (fun g => g.1 == jsonCounterpart f.1)).map Prod.snd with
    | none => simp [indexStep, indexEntryOf, hm, ih]
    | some aj =>
      cases aj with
      | malformed => simp [indexStep, indexEntryOf, hm, ih]
      | jsNull => simp [indexStep, indexEntryOf, hm, ih]
      | parsed r => simp [indexStep, indexEntryOf, hm, ih]

/-- A report link `lighthouse-reports/<file>` is never the empty string. -/
theorem reports_href_ne_empty (s : String) : "lighthouse-reports/" ++ s ≠ "" := by
  intro h
  have h2 := congrArg String.length h
  rw [String.length_append] at h2
  have h3 : ("lighthouse-reports/").length = 19 := rfl
  have h4 : ("" : String).length = 0 := rfl
  rw [h3, h4] at h2
  omega

/-- Every entry of the backfill index carries a non-empty (hence
JS-truthy) `reportUrl`. -/
theorem buildHtmlIndex_reportUrl_ne (dir : ReportsDir) :
    ∀ i ∈ buildHtmlIndex dir, i.reportUrl ≠ "" := by
  intro i hi
  cases dir with
  | none => simp [buildHtmlIndex] at hi
  | some files =>
    have hi2 : i ∈ (files.filter (fun f => strEndsWith f.1 ".html")).foldl (indexStep files) [] := hi
    rw [index_foldl_eq] at hi2
    simp only [List.nil_append] at hi2
    rcases List.mem_filterMap.mp hi2 with ⟨f, _, hf⟩
    unfold indexEntryOf at hf
    cases hm : (files.find? (fun g => g.1 == jsonCounterpart f.1)).map Prod.snd with
    | none => rw [hm] at hf; exact absurd hf (by simp)
    | some aj =>
      cases aj with
      | malformed => rw [hm] at hf; exact absurd hf (by simp)
      | jsNull => rw [hm] at hf; exact absurd hf (by simp)
      | parsed r =>
        rw [hm] at hf
        have : i.reportUrl = "lighthouse-reports/" ++ f.1 := by
          cases hf
          rfl
        rw [this]
        exact reports_href_ne_empty f.1

/-- An entry whose `reportUrl` is already truthy is skipped by the backfill
loop. -/
theorem backfillStep_of_truthy (index : List IndexEntry) (e : HistoryEntry)
    (h : strTruthy e.reportUrl = true) : backfillStep index e = e := by
  unfold backfillStep
  simp [h]

/-- An entry the backfill loop does not update is returned unchanged. -/
theorem backfillStep_of_not_updated (index : List IndexEntry) (e : HistoryEntry)
    (h : backfillUpdated index e = false) : backfillStep index e = e := by
  unfold backfillStep
  by_cases h1 : strTruthy e.reportUrl = true
  · simp [h1]
  · by_cases h2 : fieldsPresent e = true
    · have h3 : List.find? (indexMatches e) index = none := by
        unfold backfillUpdated at h
        simp [h1, h2] at h
        exact List.find?_eq_none.mpr (fun x hx => by simp [h x hx])
      simp [h1, h2, h3]
    · simp [h1, h2]

/-- An entry the backfill loop does update ends with a truthy `reportUrl`
(index links are never empty). -/
theorem backfillStep_updated_truthy (index : List IndexEntry) (e : HistoryEntry)
    (hne : ∀ i ∈ index, i.reportUrl ≠ "")
    (h : backfillUpdated index e = true) :
    strTruthy (backfillStep index e).reportUrl = true := by
  unfold backfillUpdated at h
  simp only [Bool.and_eq_true, Bool.not_eq_true'] at h
  obtain ⟨⟨h1, h2⟩, h3⟩ := h
  cases hf : List.find? (indexMatches e) index with
  | none => rw [hf] at h3; simp at h3
  | some m =>
    have hm : m ∈ index := List.mem_of_find?_eq_some hf
    have hmne : m.reportUrl ≠ "" := hne m hm
    unfold backfillStep
    rw [if_neg (by simp [h1]), if_neg (by simp [h2]), hf]
    simp [strTruthy, hmne]

/-- The backfill update is idempotent on each entry. -/
theorem backfillStep_idem (index : List IndexEntry) (e : HistoryEntry)
    (hne : ∀ i ∈ index, i.reportUrl ≠ "") :
    backfillStep index (backfillStep index e) = backfillStep index e := by
  by_cases hu : backfillUpdated index e = true
  · exact backfillStep_of_truthy index _ (backfillStep_updated_truthy index e hne hu)
  · rw [backfillStep_of_not_updated index e (by simpa using hu)]
    exact backfillStep_of_not_updated index e (by simpa using hu)

/-- After one backfill pass no entry is updatable any more. -/
theorem backfillUpdated_step_false (index : List IndexEntry) (e : HistoryEntry)
    (hne : ∀ i ∈ index, i.reportUrl ≠ "") :
    backfillUpdated index (backfillStep index e) = false := by
  by_cases hu : backfillUpdated index e = true
  · have htr := backfillStep_updated_truthy index e hne hu
    unfold backfillUpdated
    simp [htr]
  · rw [backfillStep_of_not_updated index e (by simpa using hu)]
    simpa using hu

/-! Claim C5: backfill is idempotent. -/

/-- C5: for every reports directory and ledger, running the backfill pass a
second time over the result of the first yields the identical ledger with
`updatedCount = 0`, so the second run does not rewrite the ledger file:
entries whose `reportUrl` was set by the first pass are never revisited,
and entries left unmatched stay unmatched. -/
theorem c5_backfill_twice_eq_once :
    ∀ (dir : ReportsDir) (history : List HistoryEntry),
      (backfillPass (buildHtmlIndex dir) (backfillPass (buildHtmlIndex dir) history).1).1
          = (backfillPass (buildHtmlIndex dir) history).1
        ∧ (backfillPass (buildHtmlIndex dir) (backfillPass (buildHtmlIndex dir) history).1).2 = 0
        ∧ backfillRun
            (FileRead.content (LedgerJson.arr (backfillPass (buildHtmlIndex dir) history).1)) dir
            = none := by
  intro dir history
  have hne := buildHtmlIndex_reportUrl_ne dir
  have hcnt :
      (backfillPass (buildHtmlIndex dir) (backfillPass (buildHtmlIndex dir) history).1).2 = 0 := by
    unfold backfillPass
    simp only [List.countP_map]
    exact List.countP_eq_zero.mpr
      (fun e _ => by
        simp only [Function.comp_apply]
        simp [backfillUpdated_step_false (buildHtmlIndex dir) e hne])
  refine ⟨?_, hcnt, ?_⟩
  · unfold backfillPass
    simp only [List.map_map]
    have hfun : backfillStep (buildHtmlIndex dir) ∘ backfillStep (buildHtmlIndex dir)
        = backfillStep (buildHtmlIndex dir) :=
      funext (fun e => backfillStep_idem (buildHtmlIndex dir) e hne)
    rw [hfun]
  · unfold backfillRun
    simp [hcnt]

/-! Claim C7: malformed-ledger error handling. -/

/-- C7: a ledger file that is present but not a JSON array makes the
backfill path return without writing; the collection path treats a parsed
non-array as an empty replaceable sequence (and, when it collected
anything, overwrites the file with just the new entries); a missing file
reads as empty; any other read or parse failure is fatal to the collection
path, which then aborts with no write. -/
theorem c7_malformed_ledger_handling :
    (∀ dir : ReportsDir, backfillRun (FileRead.content LedgerJson.nonArray) dir = none)
    ∧ readExistingHistory (FileRead.content LedgerJson.nonArray) = Except.ok []
    ∧ readExistingHistory FileRead.missing = Except.ok []
    ∧ readExistingHistory FileRead.readErr = Except.error ()
    ∧ readExistingHistory FileRead.parseErr = Except.error ()
    ∧ (∀ (dir : ReportsDir) (ctx : RunContext),
        mainRun FileRead.readErr dir ctx = Except.error ()
          ∧ mainRun FileRead.parseErr dir ctx = Except.error ())
    ∧ (∀ (dir : ReportsDir) (ctx : RunContext),
        collectCurrentRun ctx dir ≠ [] →
        mainRun (FileRead.content LedgerJson.nonArray) dir ctx
          = Except.ok (some (collectCurrentRun ctx dir))) := by
  refine ⟨fun dir => rfl, rfl, rfl, rfl, rfl, fun dir ctx => ⟨rfl, rfl⟩, ?_⟩
  intro dir ctx h
  unfold mainRun readExistingHistory
  have hne : (collectCurrentRun ctx dir).isEmpty = false := by
    rw [Bool.eq_false_iff]
    intro he
    exact h (List.isEmpty_iff.mp he)
  simp [hne]

/-- Witness for C7 at a concrete state: one well-formed artifact makes the
collection non-empty, and the non-array ledger is overwritten by exactly
the collected entries. -/
theorem c7_malformed_ledger_handling_witness :
    collectCurrentRun ⟨none, none, none⟩
        (some [("home-mobile-t.json",
                ArtifactJson.parsed ⟨some 1, none, none, none, none, some "t"⟩)]) ≠ []
      ∧ mainRun (FileRead.content LedgerJson.nonArray)
          (some [("home-mobile-t.json",
                  ArtifactJson.parsed ⟨some 1, none, none, none, none, some "t"⟩)])
          ⟨none, none, none⟩
          = Except.ok (some (collectCurrentRun ⟨none, none, none⟩
              (some [("home-mobile-t.json",
                      ArtifactJson.parsed ⟨some 1, none, none, none, none, some "t"⟩)]))) :=
  ⟨by decide,
   c7_malformed_ledger_handling.2.2.2.2.2.2
     (some [("home-mobile-t.json",
             ArtifactJson.parsed ⟨some 1, none, none, none, none, some "t"⟩)])
     ⟨none, none, none⟩ (by decide)⟩

/-! Claim C8: an absent reports directory counts as zero artifacts. -/

/-- C8: every scanning component (collection, backfill index building,
dashboard report listing) maps an absent reports directory to the empty
result, identical to what an empty directory produces. -/
theorem c8_missing_directory_zero_artifacts :
    (∀ ctx : RunContext,
        collectCurrentRun ctx none = []
          ∧ collectCurrentRun ctx none = collectCurrentRun ctx (some []))
    ∧ (buildHtmlIndex none = [] ∧ buildHtmlIndex none = buildHtmlIndex (some []))
    ∧ (getHtmlReports none = [] ∧ getHtmlReports none = getHtmlReports (some [])) :=
  ⟨fun _ => ⟨rfl, rfl⟩, ⟨rfl, rfl⟩, ⟨rfl, rfl⟩⟩

/-! Claim C9: append is order-preserving concatenation and associative
over passes. -/

/-- C9: appending `[a, b]` and then `[c]` produces the same ledger as
appending `[a, b, c]` in one pass, and an append pass is exactly
concatenation after the existing entries (no reordering on write). -/
theorem c9_append_concat_assoc :
    ∀ (ledger : List HistoryEntry) (a b c : HistoryEntry),
      mainStep (mainStep ledger [a, b]) [c] = mainStep ledger [a, b, c]
        ∧ mainStep ledger [a, b, c] = ledger ++ [a, b, c] := by
  intro ledger a b c
  constructor
  · simp [mainStep]
  · simp [mainStep]

/-! Claim C10: a collection pass that yields no entries writes nothing. -/

/-- C10: whenever the collection pass yields zero new entries, `main`
performs no write at all — whatever the state of the ledger file,
including content that is not a JSON array. -/
theorem c10_empty_collection_no_write :
    ∀ (file : FileRead) (dir : ReportsDir) (ctx : RunContext),
      collectCurrentRun ctx dir = [] →
      mainWrites (mainRun file dir ctx) = none := by
  intro file dir ctx h
  unfold mainRun
  cases hr : readExistingHistory file with
  | error e => simp [mainWrites]
  | ok existing => simp [mainWrites, h]

/-- Witness for C10: an absent reports directory collects nothing, and the
run over a non-array ledger file writes nothing. -/
theorem c10_empty_collection_no_write_witness :
    collectCurrentRun ⟨none, none, none⟩ none = []
      ∧ mainWrites (mainRun (FileRead.content LedgerJson.nonArray) none ⟨none, none, none⟩)
          = none :=
  ⟨rfl, c10_empty_collection_no_write (FileRead.content LedgerJson.nonArray) none
    ⟨none, none, none⟩ rfl⟩

/-! Claim C6: the append-only invariant. -/

/-- A backfill iteration changes at most the `reportUrl` field. -/
theorem backfillStep_shape (index : List IndexEntry) (e : HistoryEntry) :
    ∃ u, backfillStep index e = { e with reportUrl := u } := by
  unfold backfillStep
  by_cases h1 : strTruthy e.reportUrl = true
  · exact ⟨e.reportUrl, by simp [h1]⟩
  · by_cases h2 : fieldsPresent e = true
    · cases hf : List.find? (indexMatches e) index with
      | none => exact ⟨e.reportUrl, by simp [h1, h2, hf]⟩
      | some m => exact ⟨some m.reportUrl, by simp [h1, h2, hf]⟩
    · exact ⟨e.reportUrl, by simp [h1, h2]⟩

/-- A backfill iteration either leaves `reportUrl` alone, or the old value
was JS-falsy and the new value is the link of some index entry. -/
theorem backfillStep_reportUrl_cases (index : List IndexEntry) (e : HistoryEntry) :
    (backfillStep index e).reportUrl = e.reportUrl
      ∨ (strTruthy e.reportUrl = false
          ∧ ∃ m ∈ index, (backfillStep index e).reportUrl = some m.reportUrl) := by
  unfold backfillStep
  by_cases h1 : strTruthy e.reportUrl = true
  · left; simp [h1]
  · by_cases h2 : fieldsPresent e = true
    · cases hf : List.find? (indexMatches e) index with
      | none => left; simp [h1, h2, hf]
      | some m =>
        right
        refine ⟨by simpa using h1, m, List.mem_of_find?_eq_some hf, ?_⟩
        simp [h1, h2, hf]
    · left; simp [h1, h2]

/-- C6 (amended): an append pass is concatenation after the existing
entries (nothing removed, reordered or modified); a backfill pass keeps
the number and order of entries and every field of every entry except
`reportUrl`, which changes only when its previous value was JS-falsy
(null, absent or the empty string) and then receives an index link; no
deduplication exists, so repeating an append pass duplicates its
entries. -/
theorem c6_append_only_invariant :
    (∀ (existing current : List HistoryEntry), mainStep existing current = existing ++ current)
    ∧ (∀ (dir : ReportsDir) (history : List HistoryEntry),
        ((backfillPass (buildHtmlIndex dir) history).1).length = history.length)
    ∧ (∀ (dir : ReportsDir) (history : List HistoryEntry) (n : Nat) (e e2 : HistoryEntry),
        history[n]? = some e →
        ((backfillPass (buildHtmlIndex dir) history).1)[n]? = some e2 →
        e2 = { e with reportUrl := e2.reportUrl }
          ∧ (e2.reportUrl = e.reportUrl
              ∨ (strTruthy e.reportUrl = false
                  ∧ ∃ m ∈ buildHtmlIndex dir, e2.reportUrl = some m.reportUrl)))
    ∧ (∀ (ledger current : List HistoryEntry), current ≠ [] →
        mainStep (mainStep ledger current) current = ledger ++ current ++ current) := by
  refine ⟨?_, ?_, ?_, ?_⟩
  · intro existing current
    cases current with
    | nil => simp [mainStep]
    | cons a t => simp [mainStep]
  · intro dir history
    unfold backfillPass
    simp
  · intro dir history n e e2 he he2
    have hmap : ((backfillPass (buildHtmlIndex dir) history).1)[n]?
        = some (backfillStep (buildHtmlIndex dir) e) := by
      unfold backfillPass
      simp [List.getElem?_map, he]
    rw [hmap] at he2
    have he3 : e2 = backfillStep (buildHtmlIndex dir) e := by
      cases he2
      rfl
    subst he3
    obtain ⟨u, hu⟩ := backfillStep_shape (buildHtmlIndex dir) e
    constructor
    · rw [hu]
    · exact backfillStep_reportUrl_cases (buildHtmlIndex dir) e
  · intro ledger current h
    have h1 : current.isEmpty = false := by
      rw [Bool.eq_false_iff]
      intro he
      exact h (List.isEmpty_iff.mp he)
    have h2 : (ledger ++ current).isEmpty = false := by
      rw [Bool.eq_false_iff]
      intro he
      exact h (List.append_eq_nil.mp (List.isEmpty_iff.mp he)).2
    simp [mainStep, h1, h2]

/-- Witness for C6 at a concrete state: a single eligible ledger entry,
backfilled against an index built from one HTML/JSON artifact pair. -/
theorem c6_append_only_invariant_witness :
    ([({ runId := none, runNumber := none, runUrl := none, page := some "p",
         preset := some "mobile", fetchTime := some "t",
         metrics := ⟨none, none, none, none⟩, reportUrl := none } : HistoryEntry)][0]?
        = some { runId := none, runNumber := none, runUrl := none, page := some "p",
                 preset := some "mobile", fetchTime := some "t",
                 metrics := ⟨none, none, none, none⟩, reportUrl := none })
      ∧ (({ runId := none, runNumber := none, runUrl := none, page := some "p",
            preset := some "mobile", fetchTime := some "t",
            metrics := ⟨none, none, none, none⟩,
            reportUrl := some "lighthouse-reports/p-mobile-t.report.html" } : HistoryEntry)
          = { runId := none, runNumber := none, runUrl := none, page := some "p",
              preset := some "mobile", fetchTime := some "t",
              metrics := ⟨none, none, none, none⟩,
              reportUrl := some "lighthouse-reports/p-mobile-t.report.html" }
          ∧ ((some "lighthouse-reports/p-mobile-t.report.html" : Option String)
                = (none : Option String)
              ∨ (strTruthy none = false
                  ∧ ∃ m ∈ buildHtmlIndex (some
                      [("p-mobile-t.report.html", ArtifactJson.malformed),
                       ("p-mobile-t.report.json",
                        ArtifactJson.parsed ⟨none, none, none, none, none, some "t"⟩)]),
                      (some "lighthouse-reports/p-mobile-t.report.html" : Option String)
                        = some m.reportUrl))) := by
  constructor
  · rfl
  · have h := c6_append_only_invariant.2.2.1
      (some [("p-mobile-t.report.html", ArtifactJson.malformed),
             ("p-mobile-t.report.json",
              ArtifactJson.parsed ⟨none, none, none, none, none, some "t"⟩)])
      [{ runId := none, runNumber := none, runUrl := none, page := some "p",
         preset := some "mobile", fetchTime := some "t",
         metrics := ⟨none, none, none, none⟩, reportUrl := none }]
      0
      { runId := none, runNumber := none, runUrl := none, page := some "p",
        preset := some "mobile", fetchTime := some "t",
        metrics := ⟨none, none, none, none⟩, reportUrl := none }
      { runId := none, runNumber := none, runUrl := none, page := some "p",
        preset := some "mobile", fetchTime := some "t",
        metrics := ⟨none, none, none, none⟩,
        reportUrl := some "lighthouse-reports/p-mobile-t.report.html" }
      (by rfl) (by decide)
    exact h

/-- Counterexample to C6 as frozen: an entry whose `reportUrl` is the
empty string — set, not null — is still rewritten by the backfill pass,
so "never mutated except to set a previously-null reportUrl" fails. -/
theorem c6_counterexample :
    (some "" : Option String) ≠ none
      ∧ (backfillPass
          (buildHtmlIndex (some
            [("p-mobile-t.report.html", ArtifactJson.malformed),
             ("p-mobile-t.report.json",
              ArtifactJson.parsed ⟨none, none, none, none, none, some "t"⟩)]))
          [{ runId := none, runNumber := none, runUrl := none, page := some "p",
             preset := some "mobile", fetchTime := some "t",
             metrics := ⟨none, none, none, none⟩, reportUrl := some "" }]).1
        = [{ runId := none, runNumber := none, runUrl := none, page := some "p",
             preset := some "mobile", fetchTime := some "t",
             metrics := ⟨none, none, none, none⟩,
             reportUrl := some "lighthouse-reports/p-mobile-t.report.html" }] := by
  exact ⟨by decide, by decide⟩

/-! Claim C1: which artifacts the collection pass skips. -/

/-- C1 (amended): the collection pass skips exactly the artifacts whose
JSON fails to parse or parses to `null`; every other parsed artifact
yields an entry, with no condition on its category scores — in
particular an artifact with all four scores absent still yields an entry
whose four metrics are all null. -/
theorem c1_collect_skips_only_unparsable :
    ∀ (ctx : RunContext) (files : List (String × ArtifactJson)),
      collectCurrentRun ctx (some files)
        = (files.filter (fun f => strEndsWith f.1 ".json")).filterMap (fun f =>
            match f.2 with
            | ArtifactJson.parsed r => some (mkHistoryEntry ctx f.1 r)
            | _ => none) := by
  intro ctx files
  show (files.filter (fun f => strEndsWith f.1 ".json")).foldl (collectStep ctx) [] = _
  rw [collect_foldl_eq]
  simp

/-- Counterexample to C1 as frozen: an artifact that parses but has all
four category scores absent is not skipped — it yields a `HistoryEntry`
with all four metrics null. -/
theorem c1_counterexample :
    collectCurrentRun ⟨none, none, none⟩
        (some [("page_one-mobile-run.json",
                ArtifactJson.parsed
                  ⟨none, none, none, none, none, some "2024-01-01T00:00:00.000Z"⟩)])
      = [{ runId := none, runNumber := none, runUrl := none,
           page := some "page one", preset := some "mobile",
           fetchTime := some "2024-01-01T00:00:00.000Z",
           metrics := ⟨none, none, none, none⟩, reportUrl := none }] := by
  decide

/-! Claim C2: how `decode` splits a marked filename. -/

/-- If `idxOf?` reports an index, the needle occurs there. -/
theorem idxOf?_isPrefixOf (needle : List Char) :
    ∀ (hay : List Char) (i : Nat), idxOf? needle hay = some i →
      needle.isPrefixOf (hay.drop i) = true := by
  intro hay
  induction hay with
  | nil =>
    intro i h
    unfold idxOf? at h
    by_cases hn : needle.isEmpty = true
    · rw [if_pos hn] at h
      cases h
      have hnil : needle = [] := List.isEmpty_iff.mp hn
      subst hnil
      simp [List.isPrefixOf]
    · rw [if_neg hn] at h
      exact absurd h (by simp)
  | cons c t ih =>
    intro i h
    unfold idxOf? at h
    by_cases hp : needle.isPrefixOf (c :: t) = true
    · rw [if_pos hp] at h
      cases h
      exact hp
    · rw [if_neg hp] at h
      rcases Option.map_eq_some'.mp h with ⟨i0, h0, hi⟩
      rw [← hi, List.drop_succ_cons]
      exact ih i0 h0

/-- If `idxOf?` reports an index, the needle occurs nowhere earlier. -/
theorem idxOf?_min (needle : List Char) :
    ∀ (hay : List Char) (i : Nat), idxOf? needle hay = some i →
      ∀ j, j < i → needle.isPrefixOf (hay.drop j) = false := by
  intro hay
  induction hay with
  | nil =>
    intro i h j hj
    unfold idxOf? at h
    by_cases hn : needle.isEmpty = true
    · rw [if_pos hn] at h
      cases h
      omega
    · rw [if_neg hn] at h
      exact absurd h (by simp)
  | cons c t ih =>
    intro i h j hj
    unfold idxOf? at h
    by_cases hp : needle.isPrefixOf (c :: t) = true
    · rw [if_pos hp] at h
      cases h
      omega
    · rw [if_neg hp] at h
      rcases Option.map_eq_some'.mp h with ⟨i0, h0, hi⟩
      cases j with
      | zero => exact Bool.eq_false_iff.mpr hp
      | succ j0 =>
        rw [List.drop_succ_cons]
        exact ih i0 h0 j0 (by omega)

/-- If `idxOf?` reports no index, the needle occurs nowhere. -/
theorem idxOf?_none (needle : List Char) :
    ∀ (hay : List Char), idxOf? needle hay = none →
      ∀ j, needle.isPrefixOf (hay.drop j) = false := by
  intro hay
  induction hay with
  | nil =>
    intro h j
    unfold idxOf? at h
    by_cases hn : needle.isEmpty = true
    · rw [if_pos hn] at h
      exact absurd h (by simp)
    · rw [List.drop_nil]
      cases hne : needle with
      | nil => rw [hne] at hn; exact (hn rfl).elim
      | cons a t2 => simp [List.isPrefixOf]
  | cons c t ih =>
    intro h j
    unfold idxOf? at h
    by_cases hp : needle.isPrefixOf (c :: t) = true
    · rw [if_pos hp] at h
      exact absurd h (by simp)
    · rw [if_neg hp] at h
      have h0 : idxOf? needle t = none := by
        cases hx : idxOf? needle t with
        | none => rfl
        | some k => rw [hx] at h; exact absurd h (by simp)
      cases j with
      | zero => exact Bool.eq_false_iff.mpr hp
      | succ j0 =>
        rw [List.drop_succ_cons]
        exact ih h0 j0

/-- `idxOf?` is complete: an occurrence index that nothing precedes is the
reported index. -/
theorem idxOf?_eq_some_of (needle hay : List Char) (i : Nat)
    (h1 : needle.isPrefixOf (hay.drop i) = true)
    (h2 : ∀ j, j < i → needle.isPrefixOf (hay.drop j) = false) :
    idxOf? needle hay = some i := by
  cases hk : idxOf? needle hay with
  | none =>
    rw [idxOf?_none needle hay hk i] at h1
    exact absurd h1 (by simp)
  | some k =>
    have hp := idxOf?_isPrefixOf needle hay k hk
    have hmin := idxOf?_min needle hay k hk
    have hki : k = i := by
      by_contra hne
      rcases Nat.lt_or_ge k i with hlt | hge
      · rw [h2 k hlt] at hp
        exact absurd hp (by simp)
      · have hlt2 : i < k := by omega
        rw [hmin i hlt2] at h1
        exact absurd h1 (by simp)
    rw [hki]

/-- The mobile branch of `decode`: when `-mobile-` occurs, the split is at
its leftmost occurrence. -/
theorem decode_mobile_case (file : String) (i : Nat)
    (h1 : mobileMarker.isPrefixOf (file.toList.drop i) = true)
    (h2 : ∀ j, j < i → mobileMarker.isPrefixOf (file.toList.drop j) = false) :
    parseReportFile file
      = (String.mk ((file.toList.take i).map underscoreToSpace), "mobile") := by
  unfold parseReportFile
  rw [idxOf?_eq_some_of mobileMarker file.toList i h1 h2]

/-- The desktop branch of `decode`: when `-mobile-` is absent and
`-desktop-` occurs, the split is at the latter's leftmost occurrence. -/
theorem decode_desktop_case (file : String) (i : Nat)
    (hm : ∀ j, mobileMarker.isPrefixOf (file.toList.drop j) = false)
    (h1 : desktopMarker.isPrefixOf (file.toList.drop i) = true)
    (h2 : ∀ j, j < i → desktopMarker.isPrefixOf (file.toList.drop j) = false) :
    parseReportFile file
      = (String.mk ((file.toList.take i).map underscoreToSpace), "desktop") := by
  unfold parseReportFile
  have hnone : idxOf? mobileMarker file.toList = none := by
    cases hx : idxOf? mobileMarker file.toList with
    | none => rfl
    | some k =>
      have hk := idxOf?_isPrefixOf mobileMarker file.toList k hx
      rw [hm k] at hk
      exact absurd hk (by simp)
  rw [hnone, idxOf?_eq_some_of desktopMarker file.toList i h1 h2]

/-- C2: `decode` scans for `-mobile-` first, then `-desktop-`; the first
marker found splits the filename at that marker's leftmost occurrence,
`preset` is that marker's name and `page` is the prefix with underscores
replaced by spaces; in particular, when `-mobile-` occurs at an earlier
index than `-desktop-`, `decode` selects `mobile` and splits at that
index. -/
theorem c2_decode_leftmost_marker :
    (∀ (file : String) (i : Nat),
        mobileMarker.isPrefixOf (file.toList.drop i) = true →
        (∀ j, j < i → mobileMarker.isPrefixOf (file.toList.drop j) = false) →
        parseReportFile file
          = (String.mk ((file.toList.take i).map underscoreToSpace), "mobile"))
    ∧ (∀ (file : String) (i : Nat),
        (∀ j, mobileMarker.isPrefixOf (file.toList.drop j) = false) →
        desktopMarker.isPrefixOf (file.toList.drop i) = true →
        (∀ j, j < i → desktopMarker.isPrefixOf (file.toList.drop j) = false) →
        parseReportFile file
          = (String.mk ((file.toList.take i).map underscoreToSpace), "desktop"))
    ∧ (∀ (file : String) (i k : Nat),
        mobileMarker.isPrefixOf (file.toList.drop i) = true →
        (∀ j, j < i → mobileMarker.isPrefixOf (file.toList.drop j) = false) →
        desktopMarker.isPrefixOf (file.toList.drop k) = true →
        i < k →
        parseReportFile file
          = (String.mk ((file.toList.take i).map underscoreToSpace), "mobile")) :=
  ⟨decode_mobile_case,
   decode_desktop_case,
   fun file i _ h1 h2 _ _ => decode_mobile_case file i h1 h2⟩

/-- Witness for C2: the marker `-mobile-` occurs leftmost at index 3 of
`a_b-mobile-2024.json`, and `decode` splits there, mapping `a_b` to
`a b`. -/
theorem c2_decode_leftmost_marker_witness :
    mobileMarker.isPrefixOf (("a_b-mobile-2024.json").toList.drop 3) = true
      ∧ parseReportFile "a_b-mobile-2024.json"
          = (String.mk ((("a_b-mobile-2024.json").toList.take 3).map underscoreToSpace),
             "mobile") :=
  ⟨by decide,
   c2_decode_leftmost_marker.1 "a_b-mobile-2024.json" 3 (by decide)
     (by
       intro j hj
       interval_cases j <;> decide)⟩

/-! Claim C3: the trend series. -/

/-- A chart point has a non-null `_ts` exactly when its `fetchTime` is a
non-empty string whose parse succeeds with a nonzero timestamp. -/
theorem tsOf_isSome_iff (dp : String → Option Int) (e : HistoryEntry) :
    (tsOf dp e).isSome = true
      ↔ ∃ s v, e.fetchTime = some s ∧ s ≠ "" ∧ dp s = some v ∧ v ≠ 0 := by
  cases hf : e.fetchTime with
  | none => simp [tsOf, hf]
  | some s =>
    by_cases hs2 : s = ""
    · subst hs2
      simp [tsOf, hf]
    · cases hd : dp s with
      | none => simp [tsOf, hf, hs2, hd]
      | some v =>
        by_cases hv : v = 0
        · subst hv
          simp [tsOf, hf, hs2, hd]
        · simp [tsOf, hf, hs2, hd, hv]

/-- The page/preset/metric chart filter, in propositional form. -/
theorem trendFilter_iff (page preset : String) (metric : MetricName) (d : HistoryEntry) :
    trendFilter page preset metric d = true
      ↔ d.page = some page ∧ d.preset = some preset
          ∧ ∃ q, getMetric d.metrics metric = some q := by
  unfold trendFilter
  simp [Option.isSome_iff_exists, and_assoc]

/-- C3 (amended): for a selected page, preset and metric the trend series
consists of exactly the ledger entries of that page and preset whose
metric is non-null and whose `fetchTime` is non-empty and parses to a
nonzero timestamp (a parse result of exactly the Unix epoch is coerced to
"no timestamp" by `|| null` and excluded), sorted ascending by that
timestamp; each point's value is the score times 100, and the overlay
line is the constant 90, identical for all four metrics, with one point
per series point. -/
theorem c3_trend_series_spec :
    (∀ (dp : String → Option Int) (data : List HistoryEntry) (page preset : String)
        (metric : MetricName),
        (trendSeries dp data page preset metric).Perm
            (data.filter (fun d => (tsOf dp d).isSome && trendFilter page preset metric d))
          ∧ List.Sorted (trendRel dp) (trendSeries dp data page preset metric)
          ∧ (∀ d, d ∈ trendSeries dp data page preset metric ↔
              d ∈ data ∧ d.page = some page ∧ d.preset = some preset
                ∧ (∃ q, getMetric d.metrics metric = some q)
                ∧ (∃ s v, d.fetchTime = some s ∧ s ≠ "" ∧ dp s = some v ∧ v ≠ 0)))
    ∧ (∀ (dp : String → Option Int) (data : List HistoryEntry) (page preset : String)
        (metric : MetricName) (d : HistoryEntry) (q : Rat),
        d ∈ trendSeries dp data page preset metric →
        getMetric d.metrics metric = some q →
        pointValue metric d = q * 100)
    ∧ (∀ metric : MetricName, metricThresholdMap metric = 90)
    ∧ (∀ (dp : String → Option Int) (data : List HistoryEntry) (page preset : String)
        (metric : MetricName),
        thresholdLine dp data page preset metric
          = List.replicate (trendSeries dp data page preset metric).length (90 : Rat)) := by
  refine ⟨?_, ?_, ?_, ?_⟩
  · intro dp data page preset metric
    have hperm :
        (trendSeries dp data page preset metric).Perm
          (data.filter (fun d => (tsOf dp d).isSome && trendFilter page preset metric d)) := by
      have h2 : (data.filter (trendFilter page preset metric)).filter
            (fun d => (tsOf dp d).isSome)
          = data.filter (fun d => (tsOf dp d).isSome && trendFilter page preset metric d) :=
        List.filter_filter _ _
      rw [← h2]
      exact List.perm_insertionSort (trendRel dp) _
    refine ⟨hperm, List.sorted_insertionSort (trendRel dp) _, ?_⟩
    intro d
    rw [hperm.mem_iff, List.mem_filter, Bool.and_eq_true, tsOf_isSome_iff, trendFilter_iff]
    tauto
  · intro dp data page preset metric d q _ hq
    unfold pointValue
    rw [hq]
    rfl
  · intro metric
    cases metric <;> rfl
  · intro dp data page preset metric
    have hth : metricThresholdMap metric = 90 := by cases metric <;> rfl
    unfold thresholdLine
    rw [hth]
    exact List.map_const (trendSeries dp data page preset metric) (90 : Rat)

/-- Witness for C3 at a concrete state: a single matching entry appears in
its own trend series and contributes the point value score × 100. -/
theorem c3_trend_series_spec_witness :
    ({ runId := none, runNumber := none, runUrl := none, page := some "p",
       preset := some "mobile", fetchTime := some "t",
       metrics := ⟨some 1, none, none, none⟩, reportUrl := none } : HistoryEntry)
        ∈ trendSeries (fun _ => some 1)
            [{ runId := none, runNumber := none, runUrl := none, page := some "p",
               preset := some "mobile", fetchTime := some "t",
               metrics := ⟨some 1, none, none, none⟩, reportUrl := none }]
            "p" "mobile" MetricName.performance
      ∧ pointValue MetricName.performance
          { runId := none, runNumber := none, runUrl := none, page := some "p",
            preset := some "mobile", fetchTime := some "t",
            metrics := ⟨some 1, none, none, none⟩, reportUrl := none }
          = 1 * 100 :=
  ⟨by decide,
   c3_trend_series_spec.2.1 (fun _ => some 1)
     [{ runId := none, runNumber := none, runUrl := none, page := some "p",
        preset := some "mobile", fetchTime := some "t",
        metrics := ⟨some 1, none, none, none⟩, reportUrl := none }]
     "p" "mobile" MetricName.performance
     { runId := none, runNumber := none, runUrl := none, page := some "p",
       preset := some "mobile", fetchTime := some "t",
       metrics := ⟨some 1, none, none, none⟩, reportUrl := none }
     1 (by decide) (by decide)⟩

/-- Counterexample to C3 as frozen: an entry whose `fetchTime` parses to a
valid instant — the Unix epoch, timestamp 0, as ECMAScript `Date.parse`
returns for this date-time string — is excluded from the series by the
`|| null` coercion, although the claim requires it to be included. -/
theorem c3_counterexample :
    trendSeries (fun s => if s == "1970-01-01T00:00:00.000Z" then some 0 else none)
        [{ runId := none, runNumber := none, runUrl := none, page := some "home",
           preset := some "mobile", fetchTime := some "1970-01-01T00:00:00.000Z",
           metrics := ⟨some 1, none, none, none⟩, reportUrl := none }]
        "home" "mobile" MetricName.performance = []
      ∧ (fun s => if s == "1970-01-01T00:00:00.000Z" then some 0 else none)
          "1970-01-01T00:00:00.000Z" = some 0
      ∧ trendFilter "home" "mobile" MetricName.performance
          { runId := none, runNumber := none, runUrl := none, page := some "home",
            preset := some "mobile", fetchTime := some "1970-01-01T00:00:00.000Z",
            metrics := ⟨some 1, none, none, none⟩, reportUrl := none } = true :=
  ⟨by decide, by decide, by decide⟩

/-! Claim C4: the table sort. -/

/-- C4 (amended): the table view is a permutation of the ledger (one row
per entry) sorted by the comparator key, descending: primary key the
parsed `fetchTime` with missing, empty or unparseable values coerced to
the timestamp 0 (the Unix epoch — oldest only among post-epoch
timestamps), secondary key `runNumber` descending with a missing or
non-numeric value treated as 0; in particular an entry with a strictly
later parsed `fetchTime` is ordered before an earlier one. -/
theorem c4_table_sort_spec :
    (∀ (dp : String → Option Int) (history : List HistoryEntry),
        (sortedHistoryEntries dp history).Perm history
          ∧ List.Sorted (tableRel dp) (sortedHistoryEntries dp history))
    ∧ (∀ (dp : String → Option Int) (e : HistoryEntry),
        (e.fetchTime = none → tKey dp e = 0)
          ∧ (∀ s, e.fetchTime = some s → dp s = none → tKey dp e = 0))
    ∧ (∀ (dp : String → Option Int) (e1 e2 : HistoryEntry) (s1 s2 : String) (v1 v2 : Int),
        e1.fetchTime = some s1 → s1 ≠ "" → dp s1 = some v1 →
        e2.fetchTime = some s2 → s2 ≠ "" → dp s2 = some v2 →
        v1 < v2 →
        sortedHistoryEntries dp [e1, e2] = [e2, e1]) := by
  refine ⟨?_, ?_, ?_⟩
  · intro dp history
    exact ⟨List.perm_insertionSort (tableRel dp) history,
           List.sorted_insertionSort (tableRel dp) history⟩
  · intro dp e
    constructor
    · intro he
      simp [tKey, he]
    · intro s hs hd
      simp [tKey, hs, hd]
  · intro dp e1 e2 s1 s2 v1 v2 h1 h2 h3 h4 h5 h6 h7
    have k1 : tKey dp e1 = v1 := by simp [tKey, h1, h2, h3]
    have k2 : tKey dp e2 = v2 := by simp [tKey, h4, h5, h6]
    have hnot : ¬ tableRel dp e1 e2 := by
      unfold tableRel
      rw [k1, k2]
      omega
    unfold sortedHistoryEntries
    simp [List.insertionSort, List.orderedInsert, hnot]

/-- Witness for C4 at the claim's own instance: E1 with the earlier
fetch time and run number 5, E2 with the later fetch time and run number
3 — the table orders E2 before E1. -/
theorem c4_table_sort_spec_witness :
    ((1 : Int) < 2)
      ∧ sortedHistoryEntries
          (fun s => if s == "T2" then some 2 else if s == "T1" then some 1 else none)
          [{ runId := none, runNumber := some 5, runUrl := none, page := some "p",
             preset := some "mobile", fetchTime := some "T1",
             metrics := ⟨none, none, none, none⟩, reportUrl := none },
           { runId := none, runNumber := some 3, runUrl := none, page := some "p",
             preset := some "mobile", fetchTime := some "T2",
             metrics := ⟨none, none, none, none⟩, reportUrl := none }]
        = [{ runId := none, runNumber := some 3, runUrl := none, page := some "p",
             preset := some "mobile", fetchTime := some "T2",
             metrics := ⟨none, none, none, none⟩, reportUrl := none },
           { runId := none, runNumber := some 5, runUrl := none, page := some "p",
             preset := some "mobile", fetchTime := some "T1",
             metrics := ⟨none, none, none, none⟩, reportUrl := none }] :=
  ⟨by decide,
   c4_table_sort_spec.2.2
     (fun s => if s == "T2" then some 2 else if s == "T1" then some 1 else none)
     { runId := none, runNumber := some 5, runUrl := none, page := some "p",
       preset := some "mobile", fetchTime := some "T1",
       metrics := ⟨none, none, none, none⟩, reportUrl := none }
     { runId := none, runNumber := some 3, runUrl := none, page := some "p",
       preset := some "mobile", fetchTime := some "T2",
       metrics := ⟨none, none, none, none⟩, reportUrl := none }
     "T1" "T2" 1 2 rfl (by decide) (by decide) rfl (by decide) (by decide) (by decide)⟩

/-- Counterexample to C4 as frozen: an entry with a missing `fetchTime`
does not sort as the oldest — against an entry whose `fetchTime` parses to
a negative timestamp (a pre-1970 date, as ECMAScript `Date.parse` returns
for this date-time string), the missing-`fetchTime` entry is placed first,
i.e. newest, because `|| 0` coerces it to the epoch. -/
theorem c4_counterexample :
    (⟨none, none, none, none, none, none, ⟨none, none, none, none⟩, none⟩
        : HistoryEntry).fetchTime = none
      ∧ (fun s => if s == "1969-12-31T23:59:59.000Z" then some (-1000) else none)
          "1969-12-31T23:59:59.000Z" = some (-1000)
      ∧ sortedHistoryEntries
          (fun s => if s == "1969-12-31T23:59:59.000Z" then some (-1000) else none)
          [⟨none, none, none, some "p", some "mobile", some "1969-12-31T23:59:59.000Z",
            ⟨none, none, none, none⟩, none⟩,
           ⟨none, none, none, none, none, none, ⟨none, none, none, none⟩, none⟩]
        = [⟨none, none, none, none, none, none, ⟨none, none, none, none⟩, none⟩,
           ⟨none, none, none, some "p", some "mobile", some "1969-12-31T23:59:59.000Z",
            ⟨none, none, none, none⟩, none⟩] :=
  ⟨rfl, by decide, by decide⟩
